import Mathlib

/-!
Shallow embedding of the one-dimensional lens-profile library
(one_d_code/one_d_profiles.py) over the real numbers.

Numpy floating-point arithmetic is modelled by exact real arithmetic with
the usual Lean conventions (division by zero yields 0).  Radius arrays are
modelled as lists of reals and the numpy element-wise operations as maps.
The base class lens_profile.LensProfile is not among the sources; its
auxiliary function f_func, its redshift validation and its derived
critical surface density are modelled from the specification and are
marked as such below.
-/

noncomputable section

/-- Inverse hyperbolic tangent, written with its standard closed form.
Modelled from the spec: the base module lens_profile.py defining f_func is
not in the sources; the spec gives arctanh as the x below 1 branch. -/
def artanh (t : ℝ) : ℝ := Real.log ((1 + t) / (1 - t)) / 2

/-- Modelled from the spec: the auxiliary function f_func of the base class
LensProfile (lens_profile.py is not in the sources).  Spec section 4.1:
for x in (0,1) it is arctanh(sqrt(1-x^2))/sqrt(1-x^2), exactly 1 at x = 1,
and arctan(sqrt(x^2-1))/sqrt(x^2-1) for x above 1.  The spec leaves x = 0
undefined; in this real-valued model the x below 1 branch applies there. -/
def f_func (x : ℝ) : ℝ :=
  if x < 1 then artanh (Real.sqrt (1 - x ^ 2)) / Real.sqrt (1 - x ^ 2)
  else if x = 1 then 1
  else Real.arctan (Real.sqrt (x ^ 2 - 1)) / Real.sqrt (x ^ 2 - 1)

/-- State of the base class LensProfile: the two redshifts and the critical
surface density derived from the external cosmology at construction. -/
structure LensProfile where
  z_l : ℝ
  z_s : ℝ
  critical_surface_density_of_lens : ℝ

/-- Error conditions raised at construction (spec section 7). -/
inductive LensError where
  | invalidRedshift
  deriving DecidableEq

/-- Modelled from the spec: the LensProfile constructor (lens_profile.py is
not in the sources).  It fails with an InvalidRedshift condition when
z_s is at most z_l, and otherwise stores the redshifts together with the
critical surface density obtained from the cosmology provider, which is
passed here as the already-computed value sigma_cr. -/
def LensProfile.make (z_l z_s sigma_cr : ℝ) : Except LensError LensProfile :=
  if z_s ≤ z_l then Except.error LensError.invalidRedshift
  else Except.ok { z_l := z_l, z_s := z_s, critical_surface_density_of_lens := sigma_cr }

/-- State of a SphericalPowerLaw instance: base-class attributes flattened
together with the attributes set in SphericalPowerLaw.__init__. -/
structure SphericalPowerLaw where
  z_l : ℝ
  z_s : ℝ
  critical_surface_density_of_lens : ℝ
  einstein_radius : ℝ
  slope : ℝ
  m_ein : ℝ
  rho_s : ℝ

/-- SphericalPowerLaw.__init__ : stores einstein_radius and slope and
derives m_ein = pi * E^2 * sigma_cr and rho_s = m_ein / (pi * E^2). -/
def SphericalPowerLaw.make (einstein_radius slope z_s z_l sigma_cr : ℝ) :
    SphericalPowerLaw :=
  let m_ein := Real.pi * einstein_radius ^ 2 * sigma_cr
  { z_l := z_l
    z_s := z_s
    critical_surface_density_of_lens := sigma_cr
    einstein_radius := einstein_radius
    slope := slope
    m_ein := m_ein
    rho_s := m_ein / (Real.pi * einstein_radius ^ 2) }

/-- Element-wise body of SphericalPowerLaw.density_from_radii. -/
def SphericalPowerLaw.density (p : SphericalPowerLaw) (r : ℝ) : ℝ :=
  p.critical_surface_density_of_lens * (1 / r) ^ p.slope

/-- Element-wise body of SphericalPowerLaw.surface_mass_density_from_radii. -/
def SphericalPowerLaw.surface_mass_density (p : SphericalPowerLaw) (r : ℝ) : ℝ :=
  p.critical_surface_density_of_lens * ((3 - p.slope) / 2) *
    (p.einstein_radius / r) ^ (p.slope - 1)

/-- Element-wise body of SphericalPowerLaw.convergence_from_radii. -/
def SphericalPowerLaw.convergence (p : SphericalPowerLaw) (r : ℝ) : ℝ :=
  ((3 - p.slope) / 2) * (p.einstein_radius / r) ^ (p.slope - 1)

/-- Element-wise body of SphericalPowerLaw.deflection_angles_from_radii. -/
def SphericalPowerLaw.deflection (p : SphericalPowerLaw) (r : ℝ) : ℝ :=
  p.einstein_radius * (p.einstein_radius / r) ^ (p.slope - 2)

/-- SphericalPowerLaw.density_from_radii on a radius array. -/
def SphericalPowerLaw.density_from_radii (p : SphericalPowerLaw) (radii : List ℝ) : List ℝ :=
  radii.map (fun r => p.density r)

/-- SphericalPowerLaw.surface_mass_density_from_radii on a radius array. -/
def SphericalPowerLaw.surface_mass_density_from_radii (p : SphericalPowerLaw)
    (radii : List ℝ) : List ℝ :=
  radii.map (fun r => p.surface_mass_density r)

/-- SphericalPowerLaw.convergence_from_radii on a radius array. -/
def SphericalPowerLaw.convergence_from_radii (p : SphericalPowerLaw)
    (radii : List ℝ) : List ℝ :=
  radii.map (fun r => p.convergence r)

/-- SphericalPowerLaw.deflection_angles_from_radii on a radius array. -/
def SphericalPowerLaw.deflection_angles_from_radii (p : SphericalPowerLaw)
    (radii : List ℝ) : List ℝ :=
  radii.map (fun r => p.deflection r)

/-- State of a Hernquist instance: base-class attributes flattened together
with the attributes set in Hernquist.__init__. -/
structure Hernquist where
  z_l : ℝ
  z_s : ℝ
  critical_surface_density_of_lens : ℝ
  mass : ℝ
  effective_radius : ℝ
  half_mass_radius : ℝ
  r_s : ℝ
  rho_s : ℝ
  kappa_s : ℝ

/-- Hernquist.__init__ : derives half_mass_radius = effective_radius * 1.33,
r_s = effective_radius / 1.8153, rho_s = mass / (2 pi r_s^3) and
kappa_s = rho_s * r_s / sigma_cr. -/
def Hernquist.make (mass effective_radius z_s z_l sigma_cr : ℝ) : Hernquist :=
  let r_s := effective_radius / 1.8153
  let rho_s := mass / (2 * Real.pi * r_s ^ 3)
  { z_l := z_l
    z_s := z_s
    critical_surface_density_of_lens := sigma_cr
    mass := mass
    effective_radius := effective_radius
    half_mass_radius := effective_radius * 1.33
    r_s := r_s
    rho_s := rho_s
    kappa_s := rho_s * r_s / sigma_cr }

/-- Element-wise body of Hernquist.density_from_radii. -/
def Hernquist.density (p : Hernquist) (r : ℝ) : ℝ :=
  let x := r / p.r_s
  p.rho_s / (x * (1 + x) ^ 3)

/-- The unmasked closed-form expression inside Hernquist
surface_mass_density_from_radii (the second argument of np.where). -/
def Hernquist.surfaceExpr (p : Hernquist) (r : ℝ) : ℝ :=
  let x := r / p.r_s
  p.rho_s * p.r_s / (x ^ 2 - 1) ^ 2 * (-3 + (1 - f_func x) * (2 + x ^ 2))

/-- Element-wise body of Hernquist.surface_mass_density_from_radii:
np.where with condition f_func x = 0 selecting 0. -/
def Hernquist.surface_mass_density (p : Hernquist) (r : ℝ) : ℝ :=
  if f_func (r / p.r_s) = 0 then 0 else p.surfaceExpr r

/-- The unmasked closed-form expression inside Hernquist
convergence_from_radii. -/
def Hernquist.convergenceExpr (p : Hernquist) (r : ℝ) : ℝ :=
  let x := r / p.r_s
  p.kappa_s / (x ^ 2 - 1) ^ 2 * (-3 + (1 - f_func x) * (2 + x ^ 2))

/-- Element-wise body of Hernquist.convergence_from_radii. -/
def Hernquist.convergence (p : Hernquist) (r : ℝ) : ℝ :=
  if f_func (r / p.r_s) = 0 then 0 else p.convergenceExpr r

/-- The unmasked closed-form expression inside Hernquist
deflection_angles_from_radii. -/
def Hernquist.deflectionExpr (p : Hernquist) (r : ℝ) : ℝ :=
  let x := r / p.r_s
  2 * p.kappa_s * p.r_s * (x * f_func x / (x ^ 2 - 1))

/-- Element-wise body of Hernquist.deflection_angles_from_radii. -/
def Hernquist.deflection (p : Hernquist) (r : ℝ) : ℝ :=
  if f_func (r / p.r_s) = 0 then 0 else p.deflectionExpr r

/-- Hernquist.density_from_radii on a radius array. -/
def Hernquist.density_from_radii (p : Hernquist) (radii : List ℝ) : List ℝ :=
  radii.map (fun r => p.density r)

/-- Hernquist.surface_mass_density_from_radii on a radius array. -/
def Hernquist.surface_mass_density_from_radii (p : Hernquist) (radii : List ℝ) : List ℝ :=
  radii.map (fun r => p.surface_mass_density r)

/-- Hernquist.convergence_from_radii on a radius array. -/
def Hernquist.convergence_from_radii (p : Hernquist) (radii : List ℝ) : List ℝ :=
  radii.map (fun r => p.convergence r)

/-- Hernquist.deflection_angles_from_radii on a radius array. -/
def Hernquist.deflection_angles_from_radii (p : Hernquist) (radii : List ℝ) : List ℝ :=
  radii.map (fun r => p.deflection r)

/-- State of an NFW_Hilbert instance: base-class attributes flattened
together with the attributes set in NFW_Hilbert.__init__. -/
structure NFW_Hilbert where
  z_l : ℝ
  z_s : ℝ
  critical_surface_density_of_lens : ℝ
  m200 : ℝ
  concentration : ℝ
  r200 : ℝ
  r_s : ℝ
  rho_s : ℝ
  kappa_s : ℝ

/-- NFW_Hilbert.__init__ .  The halo concentration returned by the external
concentration-mass relation and the critical density of the cosmology at
z_l are external lookups and enter as the parameters concentration and
rho_crit.  Derived exactly as in the source:
r200 = (m200 / (1.333 pi 200 rho_crit))^(1/3), r_s = r200 / concentration,
rho_s = m200 / (4 pi r_s^3 (log(1+c) - c/(1+c))),
kappa_s = rho_s * r_s / sigma_cr. -/
def NFW_Hilbert.make (m200 z_s z_l sigma_cr concentration rho_crit : ℝ) : NFW_Hilbert :=
  let r200 := (m200 / (1.333 * Real.pi * 200 * rho_crit)) ^ ((1 : ℝ) / 3)
  let r_s := r200 / concentration
  let rho_s := m200 /
    (4 * Real.pi * r_s ^ 3 *
      (Real.log (1 + concentration) - concentration / (1 + concentration)))
  { z_l := z_l
    z_s := z_s
    critical_surface_density_of_lens := sigma_cr
    m200 := m200
    concentration := concentration
    r200 := r200
    r_s := r_s
    rho_s := rho_s
    kappa_s := rho_s * r_s / sigma_cr }

/-- Element-wise body of NFW_Hilbert.density_from_radii. -/
def NFW_Hilbert.density (p : NFW_Hilbert) (r : ℝ) : ℝ :=
  let x := r / p.r_s
  p.rho_s / (x * (1 + x) ^ 2)

/-- The unmasked closed-form expression inside NFW_Hilbert
surface_mass_density_from_radii. -/
def NFW_Hilbert.surfaceExpr (p : NFW_Hilbert) (r : ℝ) : ℝ :=
  let x := r / p.r_s
  2 * p.rho_s * p.r_s * (f_func x / (x ^ 2 - 1))

/-- Element-wise body of NFW_Hilbert.surface_mass_density_from_radii. -/
def NFW_Hilbert.surface_mass_density (p : NFW_Hilbert) (r : ℝ) : ℝ :=
  if f_func (r / p.r_s) = 0 then 0 else p.surfaceExpr r

/-- The unmasked closed-form expression inside NFW_Hilbert
convergence_from_radii. -/
def NFW_Hilbert.convergenceExpr (p : NFW_Hilbert) (r : ℝ) : ℝ :=
  let x := r / p.r_s
  2 * p.kappa_s * f_func x / (x ^ 2 - 1)

/-- Element-wise body of NFW_Hilbert.convergence_from_radii. -/
def NFW_Hilbert.convergence (p : NFW_Hilbert) (r : ℝ) : ℝ :=
  if f_func (r / p.r_s) = 0 then 0 else p.convergenceExpr r

/-- Element-wise body of NFW_Hilbert.deflection_angles_from_radii.  Note
that the source applies no np.where mask here: the raw expression is
returned unconditionally. -/
def NFW_Hilbert.deflection (p : NFW_Hilbert) (r : ℝ) : ℝ :=
  let x := r / p.r_s
  4 * p.kappa_s * p.r_s * ((Real.log (x / 2) + (1 - f_func x)) / x)

/-- NFW_Hilbert.density_from_radii on a radius array. -/
def NFW_Hilbert.density_from_radii (p : NFW_Hilbert) (radii : List ℝ) : List ℝ :=
  radii.map (fun r => p.density r)

/-- NFW_Hilbert.surface_mass_density_from_radii on a radius array. -/
def NFW_Hilbert.surface_mass_density_from_radii (p : NFW_Hilbert) (radii : List ℝ) : List ℝ :=
  radii.map (fun r => p.surface_mass_density r)

/-- NFW_Hilbert.convergence_from_radii on a radius array. -/
def NFW_Hilbert.convergence_from_radii (p : NFW_Hilbert) (radii : List ℝ) : List ℝ :=
  radii.map (fun r => p.convergence r)

/-- NFW_Hilbert.deflection_angles_from_radii on a radius array. -/
def NFW_Hilbert.deflection_angles_from_radii (p : NFW_Hilbert) (radii : List ℝ) : List ℝ :=
  radii.map (fun r => p.deflection r)

/-- IEEE-definedness model of the element-wise body of
Hernquist.convergence_from_radii.  Numpy first evaluates the unmasked
expression, whose division produces a non-finite float (Inf or NaN)
exactly when the denominator (x^2-1)^2 vanishes, and then np.where
replaces the element by the finite 0 wherever f_func x = 0.  A none
result models a non-finite float reaching the caller. -/
def Hernquist.convergenceF (p : Hernquist) (r : ℝ) : Option ℝ :=
  let x := r / p.r_s
  if f_func x = 0 then some 0
  else if (x ^ 2 - 1) ^ 2 = 0 then none
  else some (p.convergenceExpr r)

/-- IEEE-definedness model of the element-wise body of
NFW_Hilbert.convergence_from_radii, on the same convention as
Hernquist.convergenceF: the unmasked expression divides by x^2 - 1. -/
def NFW_Hilbert.convergenceF (p : NFW_Hilbert) (r : ℝ) : Option ℝ :=
  let x := r / p.r_s
  if f_func x = 0 then some 0
  else if x ^ 2 - 1 = 0 then none
  else some (p.convergenceExpr r)

/-- The four evaluator methods shared by all profile classes. -/
inductive EvaluatorKind where
  | density
  | surfaceMassDensity
  | convergence
  | deflectionAngles

/-- A method call on a SphericalPowerLaw instance, modelled as a state
transformer.  The body of every evaluator contains no attribute
assignment, so the translation returns the receiver state unchanged
together with the computed array. -/
def SphericalPowerLaw.call (p : SphericalPowerLaw) (k : EvaluatorKind)
    (radii : List ℝ) : SphericalPowerLaw × List ℝ :=
  match k with
  | EvaluatorKind.density => (p, p.density_from_radii radii)
  | EvaluatorKind.surfaceMassDensity => (p, p.surface_mass_density_from_radii radii)
  | EvaluatorKind.convergence => (p, p.convergence_from_radii radii)
  | EvaluatorKind.deflectionAngles => (p, p.deflection_angles_from_radii radii)

/-- A method call on a Hernquist instance, modelled as a state transformer;
same convention as SphericalPowerLaw.call. -/
def Hernquist.call (p : Hernquist) (k : EvaluatorKind)
    (radii : List ℝ) : Hernquist × List ℝ :=
  match k with
  | EvaluatorKind.density => (p, p.density_from_radii radii)
  | EvaluatorKind.surfaceMassDensity => (p, p.surface_mass_density_from_radii radii)
  | EvaluatorKind.convergence => (p, p.convergence_from_radii radii)
  | EvaluatorKind.deflectionAngles => (p, p.deflection_angles_from_radii radii)

/-- A method call on an NFW_Hilbert instance, modelled as a state
transformer; same convention as SphericalPowerLaw.call. -/
def NFW_Hilbert.call (p : NFW_Hilbert) (k : EvaluatorKind)
    (radii : List ℝ) : NFW_Hilbert × List ℝ :=
  match k with
  | EvaluatorKind.density => (p, p.density_from_radii radii)
  | EvaluatorKind.surfaceMassDensity => (p, p.surface_mass_density_from_radii radii)
  | EvaluatorKind.convergence => (p, p.convergence_from_radii radii)
  | EvaluatorKind.deflectionAngles => (p, p.deflection_angles_from_radii radii)

/-- A concrete Hernquist state used to instantiate universally quantified
theorems; its scale radius is 1. -/
def hernquistOne : Hernquist :=
  { z_l := 0.3
    z_s := 1
    critical_surface_density_of_lens := 1
    mass := 1
    effective_radius := 1.8153
    half_mass_radius := 2.4143
    r_s := 1
    rho_s := 1
    kappa_s := 1 }

/-- A concrete NFW_Hilbert state used to instantiate universally quantified
theorems; its scale radius is 1. -/
def nfwOne : NFW_Hilbert :=
  { z_l := 0.5
    z_s := 2
    critical_surface_density_of_lens := 1
    m200 := 1
    concentration := 1
    r200 := 1
    r_s := 1
    rho_s := 1
    kappa_s := 1 }

/-- A concrete SphericalPowerLaw state used to instantiate universally
quantified theorems; its slope is 2. -/
def splOne : SphericalPowerLaw :=
  { z_l := 0.3
    z_s := 1
    critical_surface_density_of_lens := 1
    einstein_radius := 1
    slope := 2
    m_ein := 1
    rho_s := 1 }

/-- Modelled from the spec: SphericalPowerLaw.__init__ first delegates to
the LensProfile base constructor (lens_profile.py is not in the sources),
which validates the redshift ordering, and only then sets its own
attributes. -/
def SphericalPowerLaw.construct (einstein_radius slope z_s z_l sigma_cr : ℝ) :
    Except LensError SphericalPowerLaw :=
  match LensProfile.make z_l z_s sigma_cr with
  | Except.error e => Except.error e
  | Except.ok base =>
      Except.ok (SphericalPowerLaw.make einstein_radius slope base.z_s base.z_l
        base.critical_surface_density_of_lens)

/-- Modelled from the spec: Hernquist.__init__ delegates to the LensProfile
base constructor before setting its own attributes. -/
def Hernquist.construct (mass effective_radius z_s z_l sigma_cr : ℝ) :
    Except LensError Hernquist :=
  match LensProfile.make z_l z_s sigma_cr with
  | Except.error e => Except.error e
  | Except.ok base =>
      Except.ok (Hernquist.make mass effective_radius base.z_s base.z_l
        base.critical_surface_density_of_lens)

/-- Modelled from the spec: NFW_Hilbert.__init__ delegates to the
LensProfile base constructor before setting its own attributes. -/
def NFW_Hilbert.construct (m200 z_s z_l sigma_cr concentration rho_crit : ℝ) :
    Except LensError NFW_Hilbert :=
  match LensProfile.make z_l z_s sigma_cr with
  | Except.error e => Except.error e
  | Except.ok base =>
      Except.ok (NFW_Hilbert.make m200 base.z_s base.z_l
        base.critical_surface_density_of_lens concentration rho_crit)

/-- The NFW deflection formula exactly as the spec states it:
4 kappa_s r_s (ln(x/2) + 1 - f(x)) / x with x = r / r_s.  Stated from the
spec wording for comparison with the source expression. -/
def NFW_Hilbert.deflectionClaimFormula (p : NFW_Hilbert) (r : ℝ) : ℝ :=
  let x := r / p.r_s
  4 * p.kappa_s * p.r_s * (Real.log (x / 2) + 1 - f_func x) / x

/-- The auxiliary function takes the exact value 1 at x = 1 (the removable
singularity is special-cased by the spec). -/
theorem f_func_one : f_func 1 = 1 := by
  unfold f_func
  rw [if_neg (lt_irrefl (1 : ℝ)), if_pos rfl]

/-- In this real-valued model the auxiliary function vanishes at x = 0
(arctanh 1, a non-finite float in numpy, collapses to 0 under the total
conventions log 0 = 0 and division by zero = 0). -/
theorem f_func_zero : f_func 0 = 0 := by
  unfold f_func artanh
  rw [if_pos one_pos]
  norm_num

/-- The auxiliary function does not vanish at x = 2. -/
theorem f_func_two_ne_zero : f_func 2 ≠ 0 := by
  unfold f_func
  rw [if_neg (by norm_num : ¬ (2 : ℝ) < 1), if_neg (by norm_num : ¬ (2 : ℝ) = 1)]
  have hs : (0 : ℝ) < Real.sqrt (2 ^ 2 - 1) := Real.sqrt_pos.mpr (by norm_num)
  refine div_ne_zero ?_ hs.ne'
  intro h
  exact hs.ne' (Real.arctan_eq_zero_iff.mp h)

/-- Cancellation helper for the Hernquist-shaped masked expressions. -/
theorem hern_cancel_helper (a rs d A sigma : ℝ) (h : sigma ≠ 0) :
    a * rs / d * A = a * rs / sigma / d * A * sigma := by
  have hinv : sigma⁻¹ * sigma = 1 := inv_mul_cancel₀ h
  have h1 : a * rs / sigma / d * A * sigma = a * rs / d * A * (sigma⁻¹ * sigma) := by
    ring
  rw [h1, hinv, mul_one]

/-- Cancellation helper for the NFW-shaped masked expressions. -/
theorem nfw_cancel_helper (a rs g d sigma : ℝ) (h : sigma ≠ 0) :
    2 * a * rs * (g / d) = 2 * (a * rs / sigma) * g / d * sigma := by
  have hinv : sigma⁻¹ * sigma = 1 := inv_mul_cancel₀ h
  have h1 : 2 * (a * rs / sigma) * g / d * sigma = 2 * a * rs * (g / d) * (sigma⁻¹ * sigma) := by
    ring
  rw [h1, hinv, mul_one]

/-- Element-wise round trip for SphericalPowerLaw: the surface mass density
body is the convergence body scaled by the critical surface density. -/
theorem spl_scalar_roundtrip (p : SphericalPowerLaw) (r : ℝ) :
    p.surface_mass_density r = p.convergence r * p.critical_surface_density_of_lens := by
  simp only [SphericalPowerLaw.surface_mass_density, SphericalPowerLaw.convergence]
  ring

/-- Element-wise round trip for Hernquist, valid for any state whose
kappa_s attribute carries the value set by the constructor. -/
theorem hern_scalar_roundtrip (p : Hernquist)
    (hs : p.critical_surface_density_of_lens ≠ 0)
    (hk : p.kappa_s = p.rho_s * p.r_s / p.critical_surface_density_of_lens) (r : ℝ) :
    p.surface_mass_density r = p.convergence r * p.critical_surface_density_of_lens := by
  simp only [Hernquist.surface_mass_density, Hernquist.convergence, Hernquist.surfaceExpr,
    Hernquist.convergenceExpr]
  by_cases hf : f_func (r / p.r_s) = 0
  · rw [if_pos hf, if_pos hf, zero_mul]
  · rw [if_neg hf, if_neg hf, hk]
    exact hern_cancel_helper p.rho_s p.r_s _ _ _ hs

/-- Element-wise round trip for NFW_Hilbert, valid for any state whose
kappa_s attribute carries the value set by the constructor. -/
theorem nfw_scalar_roundtrip (p : NFW_Hilbert)
    (hs : p.critical_surface_density_of_lens ≠ 0)
    (hk : p.kappa_s = p.rho_s * p.r_s / p.critical_surface_density_of_lens) (r : ℝ) :
    p.surface_mass_density r = p.convergence r * p.critical_surface_density_of_lens := by
  simp only [NFW_Hilbert.surface_mass_density, NFW_Hilbert.convergence,
    NFW_Hilbert.surfaceExpr, NFW_Hilbert.convergenceExpr]
  by_cases hf : f_func (r / p.r_s) = 0
  · rw [if_pos hf, if_pos hf, zero_mul]
  · rw [if_neg hf, if_neg hf, hk]
    exact nfw_cancel_helper p.rho_s p.r_s _ _ _ hs

/-- C1: for every constructed instance of the three profile types and every
array of positive radii, surface_mass_density_from_radii equals
convergence_from_radii scaled element-wise by the critical surface density
of the lens. -/
theorem C1_surface_density_is_convergence_times_sigma
    (E gamma M Re m200 conc rhoc z_s z_l sigma_cr : ℝ) (hsig : 0 < sigma_cr)
    (R : List ℝ) (hR : ∀ r ∈ R, 0 < r) :
    (SphericalPowerLaw.make E gamma z_s z_l sigma_cr).surface_mass_density_from_radii R =
      ((SphericalPowerLaw.make E gamma z_s z_l sigma_cr).convergence_from_radii R).map
        (fun v => v *
          (SphericalPowerLaw.make E gamma z_s z_l
            sigma_cr).critical_surface_density_of_lens) ∧
    (Hernquist.make M Re z_s z_l sigma_cr).surface_mass_density_from_radii R =
      ((Hernquist.make M Re z_s z_l sigma_cr).convergence_from_radii R).map
        (fun v => v *
          (Hernquist.make M Re z_s z_l sigma_cr).critical_surface_density_of_lens) ∧
    (NFW_Hilbert.make m200 z_s z_l sigma_cr conc rhoc).surface_mass_density_from_radii R =
      ((NFW_Hilbert.make m200 z_s z_l sigma_cr conc rhoc).convergence_from_radii R).map
        (fun v => v *
          (NFW_Hilbert.make m200 z_s z_l sigma_cr conc
            rhoc).critical_surface_density_of_lens) := by
  refine ⟨?_, ?_, ?_⟩
  · unfold SphericalPowerLaw.surface_mass_density_from_radii
      SphericalPowerLaw.convergence_from_radii
    rw [List.map_map]
    refine List.map_congr_left fun r hr => ?_
    exact spl_scalar_roundtrip (SphericalPowerLaw.make E gamma z_s z_l sigma_cr) r
  · unfold Hernquist.surface_mass_density_from_radii Hernquist.convergence_from_radii
    rw [List.map_map]
    refine List.map_congr_left fun r hr => ?_
    exact hern_scalar_roundtrip (Hernquist.make M Re z_s z_l sigma_cr) hsig.ne' rfl r
  · unfold NFW_Hilbert.surface_mass_density_from_radii NFW_Hilbert.convergence_from_radii
    rw [List.map_map]
    refine List.map_congr_left fun r hr => ?_
    exact nfw_scalar_roundtrip (NFW_Hilbert.make m200 z_s z_l sigma_cr conc rhoc)
      hsig.ne' rfl r

/-- Witness for C1 at concrete parameters and the radius grid of the spec. -/
theorem C1_witness :
    (SphericalPowerLaw.make 1 2 1 0.3 2).surface_mass_density_from_radii [0.1, 1, 5, 10, 100] =
      ((SphericalPowerLaw.make 1 2 1 0.3 2).convergence_from_radii [0.1, 1, 5, 10, 100]).map
        (fun v => v *
          (SphericalPowerLaw.make 1 2 1 0.3 2).critical_surface_density_of_lens) ∧
    (Hernquist.make 1 5 1 0.3 2).surface_mass_density_from_radii [0.1, 1, 5, 10, 100] =
      ((Hernquist.make 1 5 1 0.3 2).convergence_from_radii [0.1, 1, 5, 10, 100]).map
        (fun v => v * (Hernquist.make 1 5 1 0.3 2).critical_surface_density_of_lens) ∧
    (NFW_Hilbert.make 1 2 0.5 2 1 1).surface_mass_density_from_radii [0.1, 1, 5, 10, 100] =
      ((NFW_Hilbert.make 1 2 0.5 2 1 1).convergence_from_radii [0.1, 1, 5, 10, 100]).map
        (fun v => v *
          (NFW_Hilbert.make 1 2 0.5 2 1 1).critical_surface_density_of_lens) := by
  refine C1_surface_density_is_convergence_times_sigma 1 2 1 5 1 1 1 1 0.3 2 ?_
    [0.1, 1, 5, 10, 100] ?_
  · norm_num
  · intro r hr
    simp only [List.mem_cons, List.not_mem_nil, or_false] at hr
    rcases hr with rfl | rfl | rfl | rfl | rfl <;> norm_num

/-- C2 evaluation: at a radius equal to the scale radius (so x = 1 and
f_func x = 1), the convergence bodies of Hernquist and NFW_Hilbert divide
by zero, so the float result is non-finite (modelled as none) rather than
the finite positive closed-form limit the spec requires. -/
theorem C2_convergence_at_scale_radius_not_finite (p : Hernquist) (q : NFW_Hilbert)
    (hp : p.r_s ≠ 0) (hq : q.r_s ≠ 0) :
    p.convergenceF p.r_s = none ∧ q.convergenceF q.r_s = none := by
  constructor
  · simp only [Hernquist.convergenceF, div_self hp, f_func_one]
    rw [if_neg one_ne_zero, if_pos (by norm_num)]
  · simp only [NFW_Hilbert.convergenceF, div_self hq, f_func_one]
    rw [if_neg one_ne_zero, if_pos (by norm_num)]

/-- Witness for C2 at concrete states with unit scale radius. -/
theorem C2_witness :
    hernquistOne.convergenceF hernquistOne.r_s = none ∧
    nfwOne.convergenceF nfwOne.r_s = none :=
  C2_convergence_at_scale_radius_not_finite hernquistOne nfwOne
    (by norm_num [hernquistOne]) (by norm_num [nfwOne])

/-- C3: for the masked Hernquist evaluators (surface mass density,
convergence, deflection) and the masked NFW_Hilbert evaluators (surface
mass density, convergence), every array element with f_func x = 0 yields
exactly 0, and every element with f_func x different from 0 yields the
unmasked closed-form expression. -/
theorem C3_mask_semantics (p : Hernquist) (q : NFW_Hilbert) (R : List ℝ) (r : ℝ)
    (hr : r ∈ R) :
    (f_func (r / p.r_s) = 0 →
      p.surface_mass_density r = 0 ∧ p.convergence r = 0 ∧ p.deflection r = 0) ∧
    (f_func (r / p.r_s) ≠ 0 →
      p.surface_mass_density r = p.surfaceExpr r ∧
      p.convergence r = p.convergenceExpr r ∧
      p.deflection r = p.deflectionExpr r) ∧
    (f_func (r / q.r_s) = 0 →
      q.surface_mass_density r = 0 ∧ q.convergence r = 0) ∧
    (f_func (r / q.r_s) ≠ 0 →
      q.surface_mass_density r = q.surfaceExpr r ∧
      q.convergence r = q.convergenceExpr r) := by
  refine ⟨fun h => ⟨?_, ?_, ?_⟩, fun h => ⟨?_, ?_, ?_⟩, fun h => ⟨?_, ?_⟩,
    fun h => ⟨?_, ?_⟩⟩
  · exact if_pos h
  · exact if_pos h
  · exact if_pos h
  · exact if_neg h
  · exact if_neg h
  · exact if_neg h
  · exact if_pos h
  · exact if_pos h
  · exact if_neg h
  · exact if_neg h

/-- Witness for C3: the array [0, 2] on unit-scale-radius states exercises
both the vanishing branch (x = 0) and the non-vanishing branch (x = 2). -/
theorem C3_witness :
    (hernquistOne.surface_mass_density 0 = 0 ∧ hernquistOne.convergence 0 = 0 ∧
      hernquistOne.deflection 0 = 0) ∧
    (hernquistOne.surface_mass_density 2 = hernquistOne.surfaceExpr 2 ∧
      hernquistOne.convergence 2 = hernquistOne.convergenceExpr 2 ∧
      hernquistOne.deflection 2 = hernquistOne.deflectionExpr 2) ∧
    (nfwOne.surface_mass_density 0 = 0 ∧ nfwOne.convergence 0 = 0) ∧
    (nfwOne.surface_mass_density 2 = nfwOne.surfaceExpr 2 ∧
      nfwOne.convergence 2 = nfwOne.convergenceExpr 2) := by
  have hz : f_func ((0 : ℝ) / hernquistOne.r_s) = 0 := by
    norm_num [hernquistOne, f_func_zero]
  have hzq : f_func ((0 : ℝ) / nfwOne.r_s) = 0 := by
    norm_num [nfwOne, f_func_zero]
  have ht : f_func ((2 : ℝ) / hernquistOne.r_s) ≠ 0 := by
    simpa [hernquistOne] using f_func_two_ne_zero
  have htq : f_func ((2 : ℝ) / nfwOne.r_s) ≠ 0 := by
    simpa [nfwOne] using f_func_two_ne_zero
  refine ⟨(C3_mask_semantics hernquistOne nfwOne [0, 2] 0 (by simp)).1 hz,
    (C3_mask_semantics hernquistOne nfwOne [0, 2] 2 (by simp)).2.1 ht,
    (C3_mask_semantics hernquistOne nfwOne [0, 2] 0 (by simp)).2.2.1 hzq,
    (C3_mask_semantics hernquistOne nfwOne [0, 2] 2 (by simp)).2.2.2 htq⟩

/-- C4: NFW_Hilbert.deflection_angles_from_radii computes, element-wise on
any positive radius array, exactly the spec formula
4 kappa_s r_s (ln(x/2) + 1 - f(x)) / x. -/
theorem C4_nfw_deflection_closed_form (q : NFW_Hilbert) (R : List ℝ)
    (hR : ∀ r ∈ R, 0 < r) :
    q.deflection_angles_from_radii R = R.map (fun r => q.deflectionClaimFormula r) := by
  unfold NFW_Hilbert.deflection_angles_from_radii
  refine List.map_congr_left fun r hr => ?_
  simp only [NFW_Hilbert.deflection, NFW_Hilbert.deflectionClaimFormula]
  ring

/-- Witness for C4 on a concrete state and array. -/
theorem C4_witness :
    nfwOne.deflection_angles_from_radii [1, 5] =
      [nfwOne.deflectionClaimFormula 1, nfwOne.deflectionClaimFormula 5] := by
  have h := C4_nfw_deflection_closed_form nfwOne [1, 5] ?_
  · simpa using h
  · intro r hr
    simp only [List.mem_cons, List.not_mem_nil, or_false] at hr
    rcases hr with rfl | rfl <;> norm_num

/-- C5: a SphericalPowerLaw constructed with slope 2 has constant
deflection angles equal to the Einstein radius on any positive radius
array. -/
theorem C5_isothermal_deflection_constant (E z_s z_l sigma_cr : ℝ) (R : List ℝ)
    (hR : ∀ r ∈ R, 0 < r) :
    (SphericalPowerLaw.make E 2 z_s z_l sigma_cr).deflection_angles_from_radii R =
      R.map (fun _ => E) := by
  unfold SphericalPowerLaw.deflection_angles_from_radii
  refine List.map_congr_left fun r hr => ?_
  simp only [SphericalPowerLaw.deflection, SphericalPowerLaw.make]
  rw [show (2 : ℝ) - 2 = 0 by norm_num, Real.rpow_zero, mul_one]

/-- Witness for C5 on a concrete parameter set and array. -/
theorem C5_witness :
    (SphericalPowerLaw.make 3 2 1 0.3 1).deflection_angles_from_radii [1, 5, 100] =
      [(3 : ℝ), 3, 3] := by
  have h := C5_isothermal_deflection_constant 3 1 0.3 1 [1, 5, 100] ?_
  · simpa using h
  · intro r hr
    simp only [List.mem_cons, List.not_mem_nil, or_false] at hr
    rcases hr with rfl | rfl | rfl <;> norm_num

/-- C6: the derived attributes of a constructed Hernquist instance take
exactly the values stated by the spec. -/
theorem C6_hernquist_derived_attributes (M Re z_s z_l sigma_cr : ℝ)
    (hM : 0 < M) (hRe : 0 < Re) :
    (Hernquist.make M Re z_s z_l sigma_cr).half_mass_radius = 1.33 * Re ∧
    (Hernquist.make M Re z_s z_l sigma_cr).r_s = Re / 1.8153 ∧
    (Hernquist.make M Re z_s z_l sigma_cr).rho_s =
      M / (2 * Real.pi * (Hernquist.make M Re z_s z_l sigma_cr).r_s ^ 3) ∧
    (Hernquist.make M Re z_s z_l sigma_cr).kappa_s =
      (Hernquist.make M Re z_s z_l sigma_cr).rho_s *
        (Hernquist.make M Re z_s z_l sigma_cr).r_s /
        (Hernquist.make M Re z_s z_l sigma_cr).critical_surface_density_of_lens := by
  refine ⟨?_, rfl, rfl, rfl⟩
  simp only [Hernquist.make]
  ring

/-- Witness for C6 at concrete parameters. -/
theorem C6_witness :
    (Hernquist.make 1 5 1 0.3 2).half_mass_radius = 1.33 * 5 ∧
    (Hernquist.make 1 5 1 0.3 2).r_s = 5 / 1.8153 ∧
    (Hernquist.make 1 5 1 0.3 2).rho_s =
      1 / (2 * Real.pi * (Hernquist.make 1 5 1 0.3 2).r_s ^ 3) ∧
    (Hernquist.make 1 5 1 0.3 2).kappa_s =
      (Hernquist.make 1 5 1 0.3 2).rho_s * (Hernquist.make 1 5 1 0.3 2).r_s /
        (Hernquist.make 1 5 1 0.3 2).critical_surface_density_of_lens :=
  C6_hernquist_derived_attributes 1 5 1 0.3 2 (by norm_num) (by norm_num)

/-- C7: for any NFW_Hilbert state with positive rho_s and r_s, the density
evaluator is strictly decreasing in the radius over positive radii. -/
theorem C7_nfw_density_strictly_decreasing (q : NFW_Hilbert)
    (hrho : 0 < q.rho_s) (hrs : 0 < q.r_s) (R1 R2 : ℝ) (h1 : 0 < R1) (h12 : R1 < R2) :
    q.density R2 < q.density R1 := by
  simp only [NFW_Hilbert.density]
  have hx1 : 0 < R1 / q.r_s := div_pos h1 hrs
  have hx12 : R1 / q.r_s < R2 / q.r_s := by gcongr
  have hx2 : 0 < R2 / q.r_s := lt_trans hx1 hx12
  have hd1 : 0 < R1 / q.r_s * (1 + R1 / q.r_s) ^ 2 := by positivity
  have hdd : R1 / q.r_s * (1 + R1 / q.r_s) ^ 2 < R2 / q.r_s * (1 + R2 / q.r_s) ^ 2 := by
    nlinarith [hx1, hx2, hx12, mul_pos hx1 hx2, sq_nonneg (R1 / q.r_s),
      sq_nonneg (R2 / q.r_s), mul_pos (mul_pos hx1 hx2) hx2]
  exact div_lt_div_of_pos_left hrho hd1 hdd

/-- Witness for C7 on a concrete state and radius pair. -/
theorem C7_witness : nfwOne.density 2 < nfwOne.density 1 :=
  C7_nfw_density_strictly_decreasing nfwOne (by norm_num [nfwOne])
    (by norm_num [nfwOne]) 1 2 (by norm_num) (by norm_num)

/-- C8: construction of each of the three profile types, which delegates to
the LensProfile base constructor, fails with the InvalidRedshift condition
exactly when z_s is at most z_l, and succeeds whenever z_l is below z_s. -/
theorem C8_redshift_validation :
    (∀ E gamma z_s z_l sigma_cr : ℝ, z_s ≤ z_l →
      SphericalPowerLaw.construct E gamma z_s z_l sigma_cr =
        Except.error LensError.invalidRedshift) ∧
    (∀ E gamma z_s z_l sigma_cr : ℝ, z_l < z_s →
      ∃ p, SphericalPowerLaw.construct E gamma z_s z_l sigma_cr = Except.ok p) ∧
    (∀ M Re z_s z_l sigma_cr : ℝ, z_s ≤ z_l →
      Hernquist.construct M Re z_s z_l sigma_cr =
        Except.error LensError.invalidRedshift) ∧
    (∀ M Re z_s z_l sigma_cr : ℝ, z_l < z_s →
      ∃ p, Hernquist.construct M Re z_s z_l sigma_cr = Except.ok p) ∧
    (∀ m200 z_s z_l sigma_cr conc rhoc : ℝ, z_s ≤ z_l →
      NFW_Hilbert.construct m200 z_s z_l sigma_cr conc rhoc =
        Except.error LensError.invalidRedshift) ∧
    (∀ m200 z_s z_l sigma_cr conc rhoc : ℝ, z_l < z_s →
      ∃ p, NFW_Hilbert.construct m200 z_s z_l sigma_cr conc rhoc = Except.ok p) := by
  refine ⟨?_, ?_, ?_, ?_, ?_, ?_⟩
  · intro E gamma z_s z_l sigma_cr h
    unfold SphericalPowerLaw.construct LensProfile.make
    rw [if_pos h]
  · intro E gamma z_s z_l sigma_cr h
    unfold SphericalPowerLaw.construct LensProfile.make
    rw [if_neg (not_le.mpr h)]
    exact ⟨_, rfl⟩
  · intro M Re z_s z_l sigma_cr h
    unfold Hernquist.construct LensProfile.make
    rw [if_pos h]
  · intro M Re z_s z_l sigma_cr h
    unfold Hernquist.construct LensProfile.make
    rw [if_neg (not_le.mpr h)]
    exact ⟨_, rfl⟩
  · intro m200 z_s z_l sigma_cr conc rhoc h
    unfold NFW_Hilbert.construct LensProfile.make
    rw [if_pos h]
  · intro m200 z_s z_l sigma_cr conc rhoc h
    unfold NFW_Hilbert.construct LensProfile.make
    rw [if_neg (not_le.mpr h)]
    exact ⟨_, rfl⟩

/-- Witness for C8 at concrete redshift pairs on both sides of the check. -/
theorem C8_witness :
    SphericalPowerLaw.construct 1 2 0.3 0.5 1 = Except.error LensError.invalidRedshift ∧
    (∃ p, SphericalPowerLaw.construct 1 2 1 0.3 1 = Except.ok p) ∧
    Hernquist.construct 1 1 0.3 0.5 1 = Except.error LensError.invalidRedshift ∧
    (∃ p, Hernquist.construct 1 1 1 0.3 1 = Except.ok p) ∧
    NFW_Hilbert.construct 1 0.3 0.5 1 1 1 = Except.error LensError.invalidRedshift ∧
    (∃ p, NFW_Hilbert.construct 1 2 0.5 1 1 1 = Except.ok p) := by
  obtain ⟨h1, h2, h3, h4, h5, h6⟩ := C8_redshift_validation
  exact ⟨h1 1 2 0.3 0.5 1 (by norm_num), h2 1 2 1 0.3 1 (by norm_num),
    h3 1 1 0.3 0.5 1 (by norm_num), h4 1 1 1 0.3 1 (by norm_num),
    h5 1 0.3 0.5 1 1 1 (by norm_num), h6 1 2 0.5 1 1 1 (by norm_num)⟩

/-- C9: every evaluator call, modelled as a state transformer, leaves the
instance state unchanged for all three profile types, and two calls to the
same evaluator with equal radius arrays return equal results. -/
theorem C9_evaluators_pure_and_deterministic (s : SphericalPowerLaw) (p : Hernquist)
    (q : NFW_Hilbert) (k : EvaluatorKind) (R1 R2 : List ℝ) (h : R1 = R2) :
    (s.call k R1).1 = s ∧ (p.call k R1).1 = p ∧ (q.call k R1).1 = q ∧
    s.call k R1 = s.call k R2 ∧ p.call k R1 = p.call k R2 ∧
    q.call k R1 = q.call k R2 := by
  subst h
  refine ⟨?_, ?_, ?_, rfl, rfl, rfl⟩ <;> cases k <;> rfl

/-- Witness for C9 on concrete states and a concrete array. -/
theorem C9_witness :
    (splOne.call EvaluatorKind.convergence [1, 5]).1 = splOne ∧
    (hernquistOne.call EvaluatorKind.convergence [1, 5]).1 = hernquistOne ∧
    (nfwOne.call EvaluatorKind.convergence [1, 5]).1 = nfwOne ∧
    splOne.call EvaluatorKind.convergence [1, 5] =
      splOne.call EvaluatorKind.convergence [1, 5] ∧
    hernquistOne.call EvaluatorKind.convergence [1, 5] =
      hernquistOne.call EvaluatorKind.convergence [1, 5] ∧
    nfwOne.call EvaluatorKind.convergence [1, 5] =
      nfwOne.call EvaluatorKind.convergence [1, 5] :=
  C9_evaluators_pure_and_deterministic splOne hernquistOne nfwOne
    EvaluatorKind.convergence [1, 5] [1, 5] rfl

/-- C10: NFW_Hilbert.deflection_angles_from_radii applies no mask: it maps
the raw closed-form expression over the whole array, in particular
returning it unchanged at any element where f_func x = 0, while the masked
NFW surface mass density and convergence, and the masked Hernquist
deflection, all force 0 there. -/
theorem C10_nfw_deflection_unmasked (q : NFW_Hilbert) (p : Hernquist) (R : List ℝ)
    (r : ℝ) :
    q.deflection_angles_from_radii R =
      R.map (fun t => 4 * q.kappa_s * q.r_s *
        ((Real.log (t / q.r_s / 2) + (1 - f_func (t / q.r_s))) / (t / q.r_s))) ∧
    (f_func (r / q.r_s) = 0 →
      q.deflection r = 4 * q.kappa_s * q.r_s *
          ((Real.log (r / q.r_s / 2) + (1 - f_func (r / q.r_s))) / (r / q.r_s)) ∧
      q.surface_mass_density r = 0 ∧ q.convergence r = 0) ∧
    (f_func (r / p.r_s) = 0 → p.deflection r = 0) := by
  refine ⟨rfl, fun h => ⟨rfl, if_pos h, if_pos h⟩, fun h => if_pos h⟩

/-- Witness for C10 at x = 0, where f_func vanishes in this model. -/
theorem C10_witness :
    nfwOne.deflection 0 = 4 * nfwOne.kappa_s * nfwOne.r_s *
        ((Real.log (0 / nfwOne.r_s / 2) + (1 - f_func (0 / nfwOne.r_s))) /
          (0 / nfwOne.r_s)) ∧
    nfwOne.surface_mass_density 0 = 0 ∧ nfwOne.convergence 0 = 0 ∧
    hernquistOne.deflection 0 = 0 := by
  have h := C10_nfw_deflection_unmasked nfwOne hernquistOne [0] 0
  have hzq : f_func ((0 : ℝ) / nfwOne.r_s) = 0 := by norm_num [nfwOne, f_func_zero]
  have hzp : f_func ((0 : ℝ) / hernquistOne.r_s) = 0 := by
    norm_num [hernquistOne, f_func_zero]
  obtain ⟨-, h2, h3⟩ := h
  obtain ⟨ha, hb, hc⟩ := h2 hzq
  exact ⟨ha, hb, hc, h3 hzp⟩

end
